import Mathlib

/-
Shallow embedding of the todos-redux-immutable example application
(src/reducers/index.js + reducers/todos.js, src/containers/VisibleTodoList.js,
src/components/Todo.js / TodoList.js).

JavaScript reference identity is modelled with an explicit allocation tag
`rid : Nat` on every heap value (Immutable.js Record / List / the state
Record).  Every operation that allocates a fresh object threads a fresh-tag
counter and stamps the new object with it; operations that return an
existing object return it unchanged, tag included.  Under the discipline
that the counter is larger than every tag already in the state, two values
of the model are equal exactly when the JavaScript values are the same
object, so `=` on the model is the model of JavaScript `===`.
-/

namespace TodosApp

/-- Redux action.  The source dispatches plain objects whose `type` field is a
free-form string; the three recognized kinds carry the payload fields the
reducers read (`action.id`, `action.text`, `action.filter`), and `other`
stands for any action whose `type` is none of the three recognized strings. -/
inductive Action where
  | addTodo (id : Int) (text : String)
  | toggleTodo (id : Int)
  | setVisibilityFilter (filter : String)
  | other (type : String)
deriving DecidableEq, Repr

/-- Immutable.js `Record({id: null, text: '', completed: false})` value
(`TodoRecord` in reducers/todos.js), with its identity tag.  `id` is
`Option Int`: `none` is the JavaScript `null` default. -/
structure TodoRecord where
  rid : Nat
  id : Option Int
  text : String
  completed : Bool
deriving DecidableEq, Repr

/-- Immutable.js `List` value with its identity tag. -/
structure IList (α : Type) where
  rid : Nat
  items : List α
deriving DecidableEq, Repr

/-- Immutable.js `record.set('completed', v)`: returns the record itself when
the new value is identical (`===`) to the current one, otherwise a freshly
allocated record with the field replaced. -/
def recordSetCompleted (r : TodoRecord) (v : Bool) (fresh : Nat) :
    TodoRecord × Nat :=
  if v = r.completed then (r, fresh)
  else ({ r with completed := v, rid := fresh }, fresh + 1)

/-- Nested reducer `todo` from reducers/todos.js.  `state` is a `TodoRecord`,
or `none` for the JavaScript `undefined` that the `todos` reducer passes at
its `ADD_TODO` call site.
* `ADD_TODO`: `TodoRecord({id: action.id, text: action.text})` — a freshly
  allocated record with the given id and text and the default
  `completed = false` (the state is not read).
* `TOGGLE_TODO`: `state.id !== action.id` keeps the record, otherwise
  `state.set('completed', !state.completed)`.  (On `none` the JavaScript
  code would throw a TypeError reading `state.id`; that call never happens —
  `todos` passes a record here — and the embedding returns `none`.)
* default: returns the state unchanged. -/
def todo (state : Option TodoRecord) (action : Action) (fresh : Nat) :
    Option TodoRecord × Nat :=
  match action with
  | .addTodo i t =>
      (some { rid := fresh, id := some i, text := t, completed := false },
       fresh + 1)
  | .toggleTodo i =>
      match state with
      | none => (none, fresh)
      | some r =>
          if r.id ≠ some i then (some r, fresh)
          else
            let p := recordSetCompleted r (!r.completed) fresh
            (some p.1, p.2)
  | _ => (state, fresh)

/-- The mapper pass of `state.map(t => todo(t, action))` in the
`TOGGLE_TODO` branch of the `todos` reducer: runs `todo` on each element in
order, threading the allocation counter.  (`todo` applied to a record always
returns a record, so the `none` fallback branch is dead code.) -/
def mapToggle (i : Int) : List TodoRecord → Nat → List TodoRecord × Nat
  | [], fresh => ([], fresh)
  | t :: ts, fresh =>
      match todo (some t) (.toggleTodo i) fresh with
      | (some r, f1) =>
          let p := mapToggle i ts f1
          (r :: p.1, p.2)
      | (none, f1) =>
          let p := mapToggle i ts f1
          (p.1, p.2)

/-- Immutable.js `list.push(x)`: a freshly allocated List whose items are the
old items with `x` appended; the contained elements keep their identity. -/
def listPush (l : IList TodoRecord) (x : TodoRecord) (fresh : Nat) :
    IList TodoRecord × Nat :=
  ({ rid := fresh, items := l.items ++ [x] }, fresh + 1)

/-- Reducer `todos` from reducers/todos.js, over an Immutable.js `List` of
`TodoRecord`s.
* `ADD_TODO`: `state.push(todo(undefined, action))`.
* `TOGGLE_TODO`: `state.map(t => todo(t, action))`.  Immutable.js `map`
  builds a new List (fresh identity) from the mapper results; the one
  exception is the empty List, which is a shared singleton, so mapping the
  empty List yields the same canonical empty List back.
* default: returns the state unchanged (same identity). -/
def todos (state : IList TodoRecord) (action : Action) (fresh : Nat) :
    IList TodoRecord × Nat :=
  match action with
  | .addTodo _ _ =>
      match todo none action fresh with
      | (some r, f1) => listPush state r f1
      | (none, f1) => (state, f1)
  | .toggleTodo i =>
      let p := mapToggle i state.items fresh
      if state.items.isEmpty then (state, p.2)
      else ({ rid := p.2, items := p.1 }, p.2 + 1)
  | _ => (state, fresh)

/-- Modelled from the spec: the `visibilityFilter` child reducer
(src/reducers/visibilityFilter.js is imported by reducers/index.js but is
not among the sources).  Per the spec, `SET_VISIBILITY_FILTER(filter)`
replaces the filter field with the action's filter and every other action
leaves it unchanged; the filter is a plain string. -/
def visibilityFilter (state : String) (action : Action) : String :=
  match action with
  | .setVisibilityFilter f => f
  | _ => state

/-- Application state snapshot: the Immutable.js `Record` built by
`InitialState` in reducers/index.js (`todos` List plus `visibilityFilter`
string), with its identity tag. -/
structure AppState where
  rid : Nat
  todos : IList TodoRecord
  visibilityFilter : String
deriving DecidableEq, Repr

/-- Root reducer `todoApp = combineReducers({todos, visibilityFilter},
InitialState)` from reducers/index.js.  redux-immutable's `combineReducers`
runs each child reducer on its slice inside `withMutations`, storing results
with `set`; `set` is a no-op when the new value is `===` the current one,
and `withMutations` hands back the original Record when nothing was altered
— so the original snapshot is returned exactly when both child reducers
returned their slice unchanged, and otherwise a fresh Record is built. -/
def todoApp (s : AppState) (a : Action) (fresh : Nat) : AppState × Nat :=
  let p := todos s.todos a fresh
  let newFilter := visibilityFilter s.visibilityFilter a
  if p.1 = s.todos ∧ newFilter = s.visibilityFilter then (s, p.2)
  else ({ rid := p.2, todos := p.1, visibilityFilter := newFilter }, p.2 + 1)

/-- Immutable.js `list.filter(p)`: a freshly allocated List keeping, in
order, the elements satisfying the predicate (elements keep identity). -/
def listFilter (l : IList TodoRecord) (p : TodoRecord → Bool) (fresh : Nat) :
    IList TodoRecord × Nat :=
  ({ rid := fresh, items := l.items.filter p }, fresh + 1)

/-- Selector `getVisibleTodos(todos, filter)` from
containers/VisibleTodoList.js: `SHOW_ALL` returns the input List itself,
`SHOW_COMPLETED` / `SHOW_ACTIVE` filter on the `completed` flag, and any
other filter string throws `new Error('Unknown filter: ' + filter)`,
modelled as `Except.error` carrying the message string. -/
def getVisibleTodos (todoList : IList TodoRecord) (filter : String)
    (fresh : Nat) : Except String (IList TodoRecord × Nat) :=
  if filter = "SHOW_ALL" then .ok (todoList, fresh)
  else if filter = "SHOW_COMPLETED" then
    .ok (listFilter todoList (fun t => t.completed) fresh)
  else if filter = "SHOW_ACTIVE" then
    .ok (listFilter todoList (fun t => !t.completed) fresh)
  else .error ("Unknown filter: " ++ filter)

/-- Props of the `Todo` component (components/Todo.js): the `onClick`
callback (identified by its reference tag — `TodoList` passes the connected
`onTodoClick`, whose identity is stable across renders) and the `todo`
record. -/
structure TodoProps where
  onClick : Nat
  todo : TodoRecord
deriving DecidableEq, Repr

/-- Per-item render gate of components/Todo.js:
`onlyUpdateForKeys(['todo'])` (equivalently the `PureComponent` variant with
the stable callback) redraws exactly when the previous and next `todo` prop
are not the same value. -/
def shouldRedraw (prev next : TodoProps) : Bool :=
  decide (prev.todo ≠ next.todo)

/-- Concrete fixture: an uncompleted todo with id 1. -/
def sampleTodoA : TodoRecord :=
  { rid := 2, id := some 1, text := "a", completed := false }

/-- Concrete fixture: a completed todo with id 2. -/
def sampleTodoB : TodoRecord :=
  { rid := 3, id := some 2, text := "b", completed := true }

/-- Concrete fixture: a snapshot holding the two sample todos. -/
def sampleState : AppState :=
  { rid := 0, todos := { rid := 1, items := [sampleTodoA, sampleTodoB] },
    visibilityFilter := "SHOW_ALL" }

/- ------------------------------------------------------------------ -/
/- Helper lemmas                                                       -/
/- ------------------------------------------------------------------ -/

theorem map_id_of_forall {α : Type} {g : α → α} :
    ∀ {l : List α}, (∀ t ∈ l, g t = t) → l.map g = l := by
  intro l
  induction l with
  | nil => intro _; rfl
  | cons a l ih =>
      intro h
      rw [List.map_cons, h a (List.mem_cons_self a l),
        ih (fun x hx => h x (List.mem_cons_of_mem a hx))]

theorem map_eq_self_forall {α : Type} {g : α → α} :
    ∀ {l : List α}, l.map g = l → ∀ t ∈ l, g t = t := by
  intro l
  induction l with
  | nil => intro _ t ht; simp at ht
  | cons a l ih =>
      intro he t ht
      rw [List.map_cons] at he
      injection he with h1 h2
      rcases List.mem_cons.mp ht with rfl | ht2
      · exact h1
      · exact ih h2 t ht2

theorem mapToggle_cons_nomatch (i : Int) (t : TodoRecord) (ts : List TodoRecord)
    (fresh : Nat) (h : t.id ≠ some i) :
    mapToggle i (t :: ts) fresh =
      (t :: (mapToggle i ts fresh).1, (mapToggle i ts fresh).2) := by
  have ht : todo (some t) (.toggleTodo i) fresh = (some t, fresh) := by
    simp [todo, h]
  simp [mapToggle, ht]

theorem mapToggle_cons_match (i : Int) (t : TodoRecord) (ts : List TodoRecord)
    (fresh : Nat) (h : t.id = some i) :
    mapToggle i (t :: ts) fresh =
      ({ t with rid := fresh, completed := !t.completed }
         :: (mapToggle i ts (fresh + 1)).1,
       (mapToggle i ts (fresh + 1)).2) := by
  have ht : todo (some t) (.toggleTodo i) fresh =
      (some { t with rid := fresh, completed := !t.completed }, fresh + 1) := by
    simp [todo, h, recordSetCompleted]
  simp [mapToggle, ht]

theorem mapToggle_nomatch (i : Int) (ts : List TodoRecord) (fresh : Nat)
    (h : ∀ t ∈ ts, t.id ≠ some i) : mapToggle i ts fresh = (ts, fresh) := by
  induction ts generalizing fresh with
  | nil => rfl
  | cons t ts ih =>
      rw [mapToggle_cons_nomatch i t ts fresh (h t (List.mem_cons_self t ts)),
        ih fresh (fun x hx => h x (List.mem_cons_of_mem t hx))]

theorem mapToggle_single (i : Int) (ts : List TodoRecord) (fresh : Nat)
    (h : ts.countP (fun t => t.id == some i) = 1) :
    mapToggle i ts fresh =
      (ts.map (fun t =>
          if t.id = some i then { t with rid := fresh, completed := !t.completed }
          else t),
       fresh + 1) := by
  induction ts generalizing fresh with
  | nil => simp at h
  | cons t ts ih =>
      rw [List.countP_cons] at h
      by_cases ht : t.id = some i
      · have hpt : (fun t : TodoRecord => t.id == some i) t = true := by simp [ht]
        rw [if_pos hpt] at h
        have h0 : ts.countP (fun t => t.id == some i) = 0 := by omega
        have hall : ∀ x ∈ ts, x.id ≠ some i := by
          intro x hx hxe
          exact (List.countP_eq_zero.mp h0 x hx) (by simp [hxe])
        rw [mapToggle_cons_match i t ts fresh ht, mapToggle_nomatch i ts (fresh + 1) hall]
        simp only [List.map_cons, if_pos ht]
        rw [map_id_of_forall (fun x hx => by simp [hall x hx])]
      · have hpt : ¬((fun t : TodoRecord => t.id == some i) t = true) := by simp [ht]
        rw [if_neg hpt] at h
        have h1 : ts.countP (fun t => t.id == some i) = 1 := by omega
        rw [mapToggle_cons_nomatch i t ts fresh ht, ih fresh h1]
        simp [ht]

theorem todos_toggle_ne_nil (T : IList TodoRecord) (i : Int) (fresh : Nat)
    (h : T.items ≠ []) :
    todos T (.toggleTodo i) fresh =
      ({ rid := (mapToggle i T.items fresh).2, items := (mapToggle i T.items fresh).1 },
       (mapToggle i T.items fresh).2 + 1) := by
  simp [todos, List.isEmpty_iff, h]

theorem countP_eq_one_of_pairwise (i : Int) :
    ∀ l : List TodoRecord, l.Pairwise (fun a b => a.id ≠ b.id) →
      (∃ t ∈ l, t.id = some i) → l.countP (fun t => t.id == some i) = 1 := by
  intro l
  induction l with
  | nil => intro _ hm; simp at hm
  | cons t ts ih =>
      intro hp hm
      rw [List.pairwise_cons] at hp
      rw [List.countP_cons]
      by_cases ht : t.id = some i
      · have hpt : (fun t : TodoRecord => t.id == some i) t = true := by simp [ht]
        rw [if_pos hpt]
        have h0 : ts.countP (fun t => t.id == some i) = 0 := by
          apply List.countP_eq_zero.mpr
          intro x hx hxe
          have hx2 : x.id = some i := by simpa using hxe
          exact hp.1 x hx (ht.trans hx2.symm)
        rw [h0]
      · have hpt : ¬((fun t : TodoRecord => t.id == some i) t = true) := by simp [ht]
        rw [if_neg hpt]
        obtain ⟨u, hu, hui⟩ := hm
        rcases List.mem_cons.mp hu with rfl | hu2
        · exact absurd hui ht
        · rw [ih hp.2 ⟨u, hu2, hui⟩]

theorem zip_map_countP (g : TodoRecord → TodoRecord) (c : Nat) :
    ∀ l : List TodoRecord,
      (l.zip (l.map g)).countP
          (fun p => shouldRedraw { onClick := c, todo := p.1 } { onClick := c, todo := p.2 })
        = l.countP (fun t => decide (t ≠ g t)) := by
  intro l
  induction l with
  | nil => rfl
  | cons a l ih =>
      rw [List.map_cons, List.zip_cons_cons, List.countP_cons, List.countP_cons, ih]
      rfl

theorem mapToggle_forall2 (i : Int) :
    ∀ (ts : List TodoRecord) (fresh : Nat),
      List.Forall₂ (fun t u =>
          u.id = t.id ∧ u.text = t.text ∧
          u.completed = (if t.id = some i then !t.completed else t.completed) ∧
          (t.id = some i ∨ u = t))
        ts (mapToggle i ts fresh).1 := by
  intro ts
  induction ts with
  | nil => intro fresh; exact List.Forall₂.nil
  | cons t ts ih =>
      intro fresh
      by_cases ht : t.id = some i
      · rw [mapToggle_cons_match i t ts fresh ht]
        exact List.Forall₂.cons ⟨rfl, rfl, by simp [ht], Or.inl ht⟩ (ih (fresh + 1))
      · rw [mapToggle_cons_nomatch i t ts fresh ht]
        exact List.Forall₂.cons ⟨rfl, rfl, by simp [ht], Or.inr rfl⟩ (ih fresh)

/- ------------------------------------------------------------------ -/
/- Claim theorems                                                      -/
/- ------------------------------------------------------------------ -/

/-- Claim C7: `ADD_TODO` appends one freshly allocated record
`{id, text, completed = false}` at the end of the todos sequence; every
prior record is kept as the identical value (the new sequence reuses the
old elements), only the new element and the new containers are allocated,
and the resulting snapshot differs from the input snapshot. -/
theorem claim7_add_todo (S : AppState) (i : Int) (t : String) (fresh : Nat) :
    todoApp S (.addTodo i t) fresh =
      ({ rid := fresh + 2,
         todos := { rid := fresh + 1,
                    items := S.todos.items ++
                      [{ rid := fresh, id := some i, text := t, completed := false }] },
         visibilityFilter := S.visibilityFilter }, fresh + 3) ∧
    (todoApp S (.addTodo i t) fresh).1 ≠ S := by
  have htd : todos S.todos (.addTodo i t) fresh =
      ({ rid := fresh + 1,
         items := S.todos.items ++
           [{ rid := fresh, id := some i, text := t, completed := false }] },
       fresh + 2) := rfl
  have hc : ¬((todos S.todos (.addTodo i t) fresh).1 = S.todos ∧
      visibilityFilter S.visibilityFilter (.addTodo i t) = S.visibilityFilter) := by
    rw [htd]
    rintro ⟨h1, -⟩
    have h2 := congrArg (fun l : IList TodoRecord => l.items.length) h1
    simp only [List.length_append, List.length_cons, List.length_nil] at h2
    omega
  have heq : todoApp S (.addTodo i t) fresh =
      ({ rid := fresh + 2,
         todos := { rid := fresh + 1,
                    items := S.todos.items ++
                      [{ rid := fresh, id := some i, text := t, completed := false }] },
         visibilityFilter := S.visibilityFilter }, fresh + 3) := by
    simp only [todoApp]
    rw [if_neg hc, htd]
    rfl
  refine ⟨heq, ?_⟩
  rw [heq]
  intro he
  have h2 := congrArg (fun s : AppState => s.todos.items.length) he
  simp only [List.length_append, List.length_cons, List.length_nil] at h2
  omega

/-- Claim C8: an action whose kind is not among `ADD_TODO`, `TOGGLE_TODO`
and `SET_VISIBILITY_FILTER` reduces to the identical input snapshot (every
child reducer returns its slice unchanged, so the combined reducer hands
back the original state Record), and no error is raised. -/
theorem claim8_unrecognized_noop (S : AppState) (ty : String) (fresh : Nat) :
    todoApp S (.other ty) fresh = (S, fresh) := by
  simp [todoApp, todos, visibilityFilter]

/-- Claim C9: `SET_VISIBILITY_FILTER(f)` yields a snapshot whose
`visibilityFilter` is `f` while the todos sequence is the identical value
it had before (the `todos` child reducer returns its slice untouched). -/
theorem claim9_set_visibility_filter (S : AppState) (f : String) (fresh : Nat) :
    (todoApp S (.setVisibilityFilter f) fresh).1.visibilityFilter = f ∧
    (todoApp S (.setVisibilityFilter f) fresh).1.todos = S.todos := by
  by_cases h : f = S.visibilityFilter
  · subst h
    simp [todoApp, todos, visibilityFilter]
  · simp [todoApp, todos, visibilityFilter, h]

/-- Claim C1, amended: a `TOGGLE_TODO` whose id matches no record of a
non-empty todos sequence leaves every record value identical and the items
of the sequence unchanged, but the sequence itself is a rebuilt List (fresh
identity), so the reduced snapshot is a new snapshot, not reference-equal
to the input (the hypothesis `S.todos.rid < fresh` is the freshness
discipline of the identity-tag model). -/
theorem claim1_toggle_nomatch_rebuilds (S : AppState) (i : Int) (fresh : Nat)
    (hne : S.todos.items ≠ [])
    (hmatch : ∀ t ∈ S.todos.items, t.id ≠ some i)
    (hfresh : S.todos.rid < fresh) :
    todoApp S (.toggleTodo i) fresh =
      ({ rid := fresh + 1,
         todos := { rid := fresh, items := S.todos.items },
         visibilityFilter := S.visibilityFilter }, fresh + 2) ∧
    (todoApp S (.toggleTodo i) fresh).1.todos.items = S.todos.items ∧
    (todoApp S (.toggleTodo i) fresh).1.todos ≠ S.todos ∧
    (todoApp S (.toggleTodo i) fresh).1 ≠ S := by
  have hmap : mapToggle i S.todos.items fresh = (S.todos.items, fresh) :=
    mapToggle_nomatch i S.todos.items fresh hmatch
  have htd : todos S.todos (.toggleTodo i) fresh =
      ({ rid := fresh, items := S.todos.items }, fresh + 1) := by
    rw [todos_toggle_ne_nil S.todos i fresh hne, hmap]
  have hlist_ne : ({ rid := fresh, items := S.todos.items } : IList TodoRecord)
      ≠ S.todos := by
    intro he
    have h2 : fresh = S.todos.rid := congrArg IList.rid he
    omega
  have hc : ¬((todos S.todos (.toggleTodo i) fresh).1 = S.todos ∧
      visibilityFilter S.visibilityFilter (.toggleTodo i) = S.visibilityFilter) := by
    rw [htd]
    rintro ⟨h1, -⟩
    exact hlist_ne h1
  have heq : todoApp S (.toggleTodo i) fresh =
      ({ rid := fresh + 1,
         todos := { rid := fresh, items := S.todos.items },
         visibilityFilter := S.visibilityFilter }, fresh + 2) := by
    simp only [todoApp]
    rw [if_neg hc, htd]
    rfl
  refine ⟨heq, ?_, ?_, ?_⟩
  · rw [heq]
  · rw [heq]
    exact hlist_ne
  · rw [heq]
    intro he
    have h2 : fresh = S.todos.rid :=
      congrArg (fun s : AppState => s.todos.rid) he
    omega

/-- Claim C1, counterexample: on a concrete snapshot with one todo and a
`TOGGLE_TODO` matching no record (a no-op dispatch), the reduction does
not return a snapshot reference-equal to the input: the todos sequence is
a rebuilt copy (equal items, different identity). -/
theorem claim1_counterexample :
    (todoApp sampleState (.toggleTodo 99) 10).1 ≠ sampleState ∧
    (todoApp sampleState (.toggleTodo 99) 10).1.todos ≠ sampleState.todos ∧
    (todoApp sampleState (.toggleTodo 99) 10).1.todos.items
      = sampleState.todos.items := by
  decide

/-- Claim C1, witness: the amended theorem applied at the sample state. -/
theorem claim1_witness :
    (sampleState.todos.items ≠ [] ∧
     (∀ t ∈ sampleState.todos.items, t.id ≠ some 99) ∧
     sampleState.todos.rid < 10) ∧
    todoApp sampleState (.toggleTodo 99) 10 =
      ({ rid := 11, todos := { rid := 10, items := sampleState.todos.items },
         visibilityFilter := sampleState.visibilityFilter }, 12) :=
  ⟨⟨by decide, by decide, by decide⟩,
   (claim1_toggle_nomatch_rebuilds sampleState 99 10 (by decide) (by decide)
      (by decide)).1⟩

/-- Claim C2: toggling the unique matching record rebuilds the sequence so
that the matching record becomes a freshly allocated record with
`completed` negated and `id`/`text` unchanged, while every other record is
the identical value it had before, and the result is a new snapshot. -/
theorem claim2_toggle_structural_sharing (S : AppState) (i : Int) (fresh : Nat)
    (h : S.todos.items.countP (fun t => t.id == some i) = 1) :
    todoApp S (.toggleTodo i) fresh =
      ({ rid := fresh + 2,
         todos := { rid := fresh + 1,
                    items := S.todos.items.map (fun t =>
                      if t.id = some i then
                        { t with rid := fresh, completed := !t.completed }
                      else t) },
         visibilityFilter := S.visibilityFilter }, fresh + 3) ∧
    (todoApp S (.toggleTodo i) fresh).1 ≠ S := by
  have hne : S.todos.items ≠ [] := by
    intro he
    rw [he] at h
    simp at h
  have hmap := mapToggle_single i S.todos.items fresh h
  have htd : todos S.todos (.toggleTodo i) fresh =
      ({ rid := fresh + 1,
         items := S.todos.items.map (fun t =>
           if t.id = some i then { t with rid := fresh, completed := !t.completed }
           else t) }, fresh + 2) := by
    rw [todos_toggle_ne_nil S.todos i fresh hne, hmap]
  have hpos : 0 < S.todos.items.countP (fun t => t.id == some i) := by omega
  obtain ⟨t0, ht0mem, ht0⟩ := List.countP_pos_iff.mp hpos
  have ht0id : t0.id = some i := by simpa using ht0
  have hmapne : S.todos.items.map (fun t =>
      if t.id = some i then { t with rid := fresh, completed := !t.completed }
      else t) ≠ S.todos.items := by
    intro he
    have hid := map_eq_self_forall he t0 ht0mem
    rw [if_pos ht0id] at hid
    have h2 : (!t0.completed) = t0.completed := congrArg TodoRecord.completed hid
    simp at h2
  have hc : ¬((todos S.todos (.toggleTodo i) fresh).1 = S.todos ∧
      visibilityFilter S.visibilityFilter (.toggleTodo i) = S.visibilityFilter) := by
    rw [htd]
    rintro ⟨h1, -⟩
    exact hmapne (congrArg IList.items h1)
  have heq : todoApp S (.toggleTodo i) fresh =
      ({ rid := fresh + 2,
         todos := { rid := fresh + 1,
                    items := S.todos.items.map (fun t =>
                      if t.id = some i then
                        { t with rid := fresh, completed := !t.completed }
                      else t) },
         visibilityFilter := S.visibilityFilter }, fresh + 3) := by
    simp only [todoApp]
    rw [if_neg hc, htd]
    rfl
  refine ⟨heq, ?_⟩
  rw [heq]
  intro he
  have h1 : S.todos.items.map (fun t =>
      if t.id = some i then { t with rid := fresh, completed := !t.completed }
      else t) = S.todos.items :=
    congrArg (fun s : AppState => s.todos.items) he
  exact hmapne h1

/-- Claim C2, witness: toggling id 2 in the sample state flips the second
record into a fresh record and keeps the first record identical. -/
theorem claim2_witness :
    sampleState.todos.items.countP (fun t => t.id == some 2) = 1 ∧
    todoApp sampleState (.toggleTodo 2) 10 =
      ({ rid := 12,
         todos := { rid := 11,
                    items := [sampleTodoA,
                      { rid := 10, id := some 2, text := "b", completed := false }] },
         visibilityFilter := "SHOW_ALL" }, 13) ∧
    (todoApp sampleState (.toggleTodo 2) 10).1 ≠ sampleState := by
  have h := claim2_toggle_structural_sharing sampleState 2 10 (by decide)
  refine ⟨by decide, ?_, h.2⟩
  rw [h.1]
  rfl

/-- Claim C3: in a sequence of todos with pairwise-distinct ids containing
the toggled id, the per-item render gate fires for exactly one of the N
list positions after the `TOGGLE_TODO` reduction (the other N-1 positions
keep the identical record value, so the gate returns false there). -/
theorem claim3_single_item_redraw (T : IList TodoRecord) (i : Int)
    (c fresh : Nat)
    (hd : T.items.Pairwise (fun a b => a.id ≠ b.id))
    (hm : ∃ t ∈ T.items, t.id = some i) :
    (T.items.zip (todos T (.toggleTodo i) fresh).1.items).countP
        (fun p => shouldRedraw { onClick := c, todo := p.1 }
          { onClick := c, todo := p.2 }) = 1 ∧
    (todos T (.toggleTodo i) fresh).1.items.length = T.items.length := by
  have hcnt : T.items.countP (fun t => t.id == some i) = 1 :=
    countP_eq_one_of_pairwise i T.items hd hm
  have hne : T.items ≠ [] := by
    obtain ⟨t0, ht0, -⟩ := hm
    intro he
    rw [he] at ht0
    simp at ht0
  have hmap := mapToggle_single i T.items fresh hcnt
  have hitems : (todos T (.toggleTodo i) fresh).1.items
      = T.items.map (fun t =>
          if t.id = some i then { t with rid := fresh, completed := !t.completed }
          else t) := by
    rw [todos_toggle_ne_nil T i fresh hne, hmap]
  rw [hitems]
  constructor
  · rw [zip_map_countP]
    have hpoint : ∀ x ∈ T.items,
        ((decide (x ≠ if x.id = some i then
            { x with rid := fresh, completed := !x.completed } else x)) = true
          ↔ (x.id == some i) = true) := by
      intro x _
      by_cases hxid : x.id = some i
      · constructor
        · intro _
          simp [hxid]
        · intro _
          rw [if_pos hxid]
          refine decide_eq_true ?_
          intro he
          have h2 : x.completed = !x.completed := congrArg TodoRecord.completed he
          simp at h2
      · simp [hxid]
    rw [List.countP_congr hpoint]
    exact hcnt
  · rw [List.length_map]

/-- Claim C3, witness: the redraw-count theorem applied at the sample
two-todo state, toggling id 2 with a stable callback reference. -/
theorem claim3_witness :
    ((sampleState.todos.items.zip
        (todos sampleState.todos (.toggleTodo 2) 10).1.items).countP
      (fun p => shouldRedraw { onClick := 7, todo := p.1 }
        { onClick := 7, todo := p.2 }) = 1) ∧
    (todos sampleState.todos (.toggleTodo 2) 10).1.items.length
      = sampleState.todos.items.length :=
  claim3_single_item_redraw sampleState.todos 2 7 10 (by decide) (by decide)

/-- Claim C10: `TOGGLE_TODO` maps the per-item reducer over the whole
sequence, so every record whose id equals the action id — not at most one —
is replaced by a new record with `completed` negated (id and text kept),
while every non-matching record stays the identical value. -/
theorem claim10_toggle_all_matching (T : IList TodoRecord) (i : Int)
    (fresh : Nat) :
    List.Forall₂ (fun t u =>
        u.id = t.id ∧ u.text = t.text ∧
        u.completed = (if t.id = some i then !t.completed else t.completed) ∧
        (t.id = some i ∨ u = t))
      T.items (todos T (.toggleTodo i) fresh).1.items ∧
    (todos T (.toggleTodo i) fresh).1.items.length = T.items.length := by
  by_cases hne : T.items = []
  · have htd : todos T (.toggleTodo i) fresh = (T, fresh) := by
      simp [todos, mapToggle, hne]
    rw [htd, hne]
    exact ⟨List.Forall₂.nil, rfl⟩
  · have htd := todos_toggle_ne_nil T i fresh hne
    constructor
    · rw [htd]
      exact mapToggle_forall2 i T.items fresh
    · rw [htd]
      exact ((mapToggle_forall2 i T.items fresh).length_eq).symm

/-- Claim C4: the selector returns the input List itself for `SHOW_ALL`,
the order-preserving sub-sequence of uncompleted records for
`SHOW_ACTIVE`, and the order-preserving sub-sequence of completed records
for `SHOW_COMPLETED`. -/
theorem claim4_selector_branches (T : IList TodoRecord) (fresh : Nat) :
    getVisibleTodos T "SHOW_ALL" fresh = .ok (T, fresh) ∧
    getVisibleTodos T "SHOW_ACTIVE" fresh =
      .ok ({ rid := fresh, items := T.items.filter (fun t => !t.completed) },
        fresh + 1) ∧
    getVisibleTodos T "SHOW_COMPLETED" fresh =
      .ok ({ rid := fresh, items := T.items.filter (fun t => t.completed) },
        fresh + 1) ∧
    (T.items.filter (fun t => !t.completed)).Sublist T.items ∧
    (T.items.filter (fun t => t.completed)).Sublist T.items :=
  ⟨rfl, rfl, rfl, List.filter_sublist T.items, List.filter_sublist T.items⟩

/-- Claim C5: a filter string outside the three recognized values makes the
selector fail with the error message naming the offending value, while the
three recognized values never produce an error. -/
theorem claim5_unknown_filter (T : IList TodoRecord) (f : String) (fresh : Nat)
    (h : f ≠ "SHOW_ALL" ∧ f ≠ "SHOW_COMPLETED" ∧ f ≠ "SHOW_ACTIVE") :
    getVisibleTodos T f fresh = .error ("Unknown filter: " ++ f) ∧
    (∃ r, getVisibleTodos T "SHOW_ALL" fresh = .ok r) ∧
    (∃ r, getVisibleTodos T "SHOW_ACTIVE" fresh = .ok r) ∧
    (∃ r, getVisibleTodos T "SHOW_COMPLETED" fresh = .ok r) := by
  obtain ⟨h1, h2, h3⟩ := h
  exact ⟨by simp [getVisibleTodos, h1, h2, h3], ⟨(T, fresh), rfl⟩,
    ⟨_, rfl⟩, ⟨_, rfl⟩⟩

/-- Claim C5, witness: the unknown-filter theorem applied at the filter
string BOGUS. -/
theorem claim5_witness :
    ("BOGUS" ≠ "SHOW_ALL" ∧ "BOGUS" ≠ "SHOW_COMPLETED" ∧
     "BOGUS" ≠ "SHOW_ACTIVE") ∧
    getVisibleTodos sampleState.todos "BOGUS" 0 =
      .error ("Unknown filter: " ++ "BOGUS") :=
  ⟨by decide, (claim5_unknown_filter sampleState.todos "BOGUS" 0 (by decide)).1⟩

/-- Claim C6: the `SHOW_ACTIVE` and `SHOW_COMPLETED` selections partition
the todos sequence — both are order-preserving sub-sequences, together they
reconstruct the sequence up to the interleaving (their concatenation is a
permutation of it), and no record appears in both. -/
theorem claim6_filter_partition (T : IList TodoRecord) (fresh : Nat)
    (A C : IList TodoRecord × Nat)
    (hA : getVisibleTodos T "SHOW_ACTIVE" fresh = .ok A)
    (hC : getVisibleTodos T "SHOW_COMPLETED" fresh = .ok C) :
    (A.1.items ++ C.1.items).Perm T.items ∧
    A.1.items.Sublist T.items ∧ C.1.items.Sublist T.items ∧
    (∀ t ∈ A.1.items, t ∉ C.1.items) := by
  have hA0 : getVisibleTodos T "SHOW_ACTIVE" fresh =
      .ok ({ rid := fresh, items := T.items.filter (fun t => !t.completed) },
        fresh + 1) := rfl
  have hC0 : getVisibleTodos T "SHOW_COMPLETED" fresh =
      .ok ({ rid := fresh, items := T.items.filter (fun t => t.completed) },
        fresh + 1) := rfl
  have hA1 := (hA0.symm.trans hA)
  have hC1 := (hC0.symm.trans hC)
  injection hA1 with hA2
  injection hC1 with hC2
  rw [← hA2, ← hC2]
  refine ⟨?_, List.filter_sublist T.items, List.filter_sublist T.items, ?_⟩
  · have hp := List.filter_append_perm (fun t : TodoRecord => t.completed) T.items
    exact List.perm_append_comm.trans hp
  · intro t htA htC
    have h1 := (List.mem_filter.mp htA).2
    have h2 := (List.mem_filter.mp htC).2
    rw [h2] at h1
    simp at h1

/-- Claim C6, witness: the partition theorem applied at the sample state
(one active and one completed todo). -/
theorem claim6_witness :
    (([sampleTodoA] ++ [sampleTodoB]).Perm sampleState.todos.items) ∧
    [sampleTodoA].Sublist sampleState.todos.items ∧
    [sampleTodoB].Sublist sampleState.todos.items ∧
    (∀ t ∈ [sampleTodoA], t ∉ [sampleTodoB]) :=
  claim6_filter_partition sampleState.todos 20
    ({ rid := 20, items := [sampleTodoA] }, 21)
    ({ rid := 20, items := [sampleTodoB] }, 21) (by rfl) (by rfl)

end TodosApp
